import Mathlib

/-!
Shallow embedding of the dynamic schema-mutation core of the repository
(src/app/main.py): the table-definition data model, the CREATE TABLE text
compilers of the create and update paths, a structured statement type for the
statements those paths execute, an idealized relational engine giving those
statements their catalog semantics, and the two endpoint functions
`create_table` and `update_table` with their transaction (rollback) semantics.

Machine conventions:
* the catalog is a list of live tables (SQLite's table list, in creation
  order); introspection (`inspect(engine)`) is reading that list;
* a transaction is modelled by returning the pre-call catalog whenever the
  statement sequence fails (`trans.rollback()`), and the post-sequence catalog
  on success (`trans.commit()`);
* the engine is idealized from SQLite: CREATE TABLE fails on an empty column
  list (syntax error), an existing table name, a duplicate column name, or
  more than one inline PRIMARY KEY; DROP/RENAME fail on missing tables and
  RENAME on an existing target name; INSERT INTO t (cols) SELECT cols fills
  unlisted destination columns with their default (NULL when none).
-/

namespace WebSiteWithAI

/-- Foreign-key reference of a column spec (src/app/main.py class ForeignKeyReference). -/
structure ForeignKeyReference where
  table : String
  column : String
deriving DecidableEq

/-- One requested column (src/app/main.py class ColumnCreate). -/
structure ColumnCreate where
  name : String
  type : String
  nullable : Bool := true
  default : Option String := none
  primary_key : Bool := false
  foreign_key : Option ForeignKeyReference := none
deriving DecidableEq

/-- A client table specification (src/app/main.py class TableCreate). -/
structure TableCreate where
  name : String
  columns : List ColumnCreate
deriving DecidableEq

/-- Update spec: like TableCreate but the name is optional (class TableUpdate).
`name = some ""` is possible on the wire and is distinct from `none`. -/
structure TableUpdate where
  name : Option String := none
  columns : List ColumnCreate
deriving DecidableEq

/-- Column-definition clause built by the create path (main.py lines 220-227):
`"name" type [ NOT NULL][ DEFAULT d][ PRIMARY KEY]`.  The DEFAULT clause is
emitted whenever `default is not None`, even for the empty string. -/
def colDefCreate (col : ColumnCreate) : String :=
  "\"" ++ col.name ++ "\" " ++ col.type
    ++ (if !col.nullable then " NOT NULL" else "")
    ++ (match col.default with
        | some d => " DEFAULT " ++ d
        | none => "")
    ++ (if col.primary_key then " PRIMARY KEY" else "")

/-- Column-definition clause built by the update path (main.py lines 316-322).
Identical to `colDefCreate` except that the code also requires
`col.default != ''`, so an empty-string default is skipped. -/
def colDefUpdate (col : ColumnCreate) : String :=
  "\"" ++ col.name ++ "\" " ++ col.type
    ++ (if !col.nullable then " NOT NULL" else "")
    ++ (match col.default with
        | some d => if d = "" then "" else " DEFAULT " ++ d
        | none => "")
    ++ (if col.primary_key then " PRIMARY KEY" else "")

/-- Foreign-key clause of the create path (main.py lines 230-234): carries a
CONSTRAINT name `fk_<tableName>_<colName>_<idx>` where `idx` is the column's
position in the spec (`enumerate`). -/
def fkClauseCreate (tableName : String) (idx : Nat) (col : ColumnCreate) : Option String :=
  match col.foreign_key with
  | some fk =>
      some ("CONSTRAINT \"fk_" ++ tableName ++ "_" ++ col.name ++ "_" ++ toString idx
        ++ "\" FOREIGN KEY (\"" ++ col.name ++ "\") REFERENCES \""
        ++ fk.table ++ "\" (\"" ++ fk.column ++ "\")")
  | none => none

/-- Foreign-key clause of the update path (main.py lines 327-330).  The code
computes `fk_name = f"fk_{temp_table_name}_{col.name}"` but never uses it: the
emitted clause is an unnamed `FOREIGN KEY ... REFERENCES ...`. -/
def fkClauseUpdate (col : ColumnCreate) : Option String :=
  match col.foreign_key with
  | some fk =>
      some ("FOREIGN KEY (\"" ++ col.name ++ "\") REFERENCES \"" ++ fk.table
        ++ "\" (\"" ++ fk.column ++ "\")")
  | none => none

/-- `',\n  '.join(...)` of the source. -/
def joinClauses (l : List String) : String := String.intercalate ",\n  " l

/-- Full CREATE TABLE text of the create path (main.py lines 236-238). -/
def createTableSqlCreate (t : TableCreate) : String :=
  "CREATE TABLE \"" ++ t.name ++ "\" (\n  "
    ++ joinClauses (t.columns.map colDefCreate
        ++ t.columns.enum.filterMap (fun p => fkClauseCreate t.name p.1 p.2))
    ++ "\n)"

/-- Full CREATE TABLE text the update path emits for the temporary table
(main.py line 333). -/
def createTableSqlUpdate (tempTableName : String) (cols : List ColumnCreate) : String :=
  "CREATE TABLE \"" ++ tempTableName ++ "\" (\n  "
    ++ joinClauses (cols.map colDefUpdate ++ cols.filterMap fkClauseUpdate)
    ++ "\n)"

/-! ## Live catalog model (what `inspect(engine)` reads) -/

/-- Introspected column descriptor (main.py lines 164-171: name, str(type),
nullable, default text, primary_key flag). -/
structure LiveColumn where
  name : String
  type : String
  nullable : Bool
  default : Option String
  primary_key : Bool
deriving DecidableEq

/-- Introspected foreign-key descriptor (main.py lines 175-180). -/
structure LiveFk where
  constrained_columns : List String
  referred_table : String
  referred_columns : List String
deriving DecidableEq

/-- A stored row: column name paired with its value, `none` meaning NULL. -/
abbrev Row : Type := List (String × Option String)

/-- One table of the live catalog. -/
structure LiveTable where
  name : String
  columns : List LiveColumn
  fks : List LiveFk
  rows : List Row
deriving DecidableEq

/-- The live catalog, in table-creation order. -/
abbrev Catalog : Type := List LiveTable

def tableNames (cat : Catalog) : List String := cat.map (·.name)

/-- `inspector.get_columns` style lookup of a table by name. -/
def lookupTable (cat : Catalog) (n : String) : Option LiveTable :=
  cat.find? (·.name == n)

/-- Number of columns flagged PRIMARY KEY. -/
def pkCount (cols : List LiveColumn) : Nat := (cols.filter (·.primary_key)).length

/-- The live column produced by executing a create-path column clause:
NOT NULL was emitted iff not nullable, DEFAULT iff the spec carried one. -/
def liveColCreate (c : ColumnCreate) : LiveColumn :=
  { name := c.name, type := c.type, nullable := c.nullable, default := c.default,
    primary_key := c.primary_key }

/-- The live column produced by executing an update-path column clause: the
empty-string default is skipped by the update compiler, so it is not stored. -/
def liveColUpdate (c : ColumnCreate) : LiveColumn :=
  { name := c.name, type := c.type, nullable := c.nullable,
    default := match c.default with
               | some d => if d = "" then none else some d
               | none => none,
    primary_key := c.primary_key }

/-- The stored foreign-key descriptor of a column carrying a reference. -/
def liveFk (c : ColumnCreate) : Option LiveFk :=
  c.foreign_key.map (fun fk => ⟨[c.name], fk.table, [fk.column]⟩)

/-! ## Structured statements and their engine semantics -/

/-- The statements the two endpoints execute via `connection.execute(text(...))`,
in structured form. -/
inductive Stmt
  | create (name : String) (cols : List LiveColumn) (fks : List LiveFk)
  | copy (dst : String) (cols : List String) (src : String)
  | drop (name : String)
  | rename (old : String) (next : String)
deriving DecidableEq

/-- Value of a row at a column name; a missing entry reads as NULL. -/
def rowVal (r : Row) (n : String) : Option String :=
  match r.find? (·.1 == n) with
  | some p => p.2
  | none => none

/-- One destination row of `INSERT INTO dst (cols) SELECT cols FROM src`:
listed columns take the source value (matched by name), every other column
takes its column default (NULL when there is none). -/
def fillRow (dstCols : List LiveColumn) (copyCols : List String) (r : Row) : Row :=
  dstCols.map (fun c => (c.name, if c.name ∈ copyCols then rowVal r c.name else c.default))

/-- Engine semantics of one statement (idealized SQLite, see file header). -/
def execStmt (cat : Catalog) : Stmt → Except String Catalog
  | .create n cols fks =>
      if cols = [] then .error "incomplete input"
      else if n ∈ tableNames cat then .error ("table " ++ n ++ " already exists")
      else if ¬ (cols.map (·.name)).Nodup then .error "duplicate column name"
      else if 1 < pkCount cols then .error ("table " ++ n ++ " has more than one primary key")
      else .ok (cat ++ [⟨n, cols, fks, []⟩])
  | .copy dst cols src =>
      match lookupTable cat dst, lookupTable cat src with
      | some d, some s =>
          if (∀ c ∈ cols, c ∈ d.columns.map (·.name)) ∧ (∀ c ∈ cols, c ∈ s.columns.map (·.name)) then
            .ok (cat.map (fun t =>
              if t.name = dst then
                { t with rows := t.rows ++ s.rows.map (fillRow d.columns cols) }
              else t))
          else .error "no such column"
      | _, _ => .error "no such table"
  | .drop n =>
      if n ∈ tableNames cat then .ok (cat.filter (·.name ≠ n))
      else .error ("no such table: " ++ n)
  | .rename o n =>
      if (lookupTable cat o).isNone then .error ("no such table: " ++ o)
      else if n ∈ tableNames cat then
        .error ("there is already another table or index with this name: " ++ n)
      else .ok (cat.map (fun t => if t.name = o then { t with name := n } else t))

/-- Sequential execution of the statement list inside one transaction; the
first failing statement aborts the rest. -/
def runStmts (cat : Catalog) : List Stmt → Except String Catalog
  | [] => .ok cat
  | s :: rest =>
      match execStmt cat s with
      | .error e => .error e
      | .ok cat1 => runStmts cat1 rest

/-! ## The two endpoints -/

/-- Errors as the caller sees them: an HTTP status code with a detail string. -/
inductive ApiError
  | http400 (detail : String)
  | http404 (detail : String)
  | http500 (detail : String)
deriving DecidableEq

/-- Body returned by both endpoints (main.py lines 258-262 and 373-377). -/
structure TableResult where
  name : String
  columns : List LiveColumn
  foreign_keys : List LiveFk
deriving DecidableEq

def exceptIsOk : Except ApiError TableResult → Bool
  | .ok _ => true
  | .error _ => false

instance exceptDecEq {ε α : Type} [DecidableEq ε] [DecidableEq α] :
    DecidableEq (Except ε α) := fun x y =>
  match x, y with
  | .ok a, .ok b =>
      if h : a = b then isTrue (by rw [h])
      else isFalse (by intro hc; injection hc with h2; exact h h2)
  | .error a, .error b =>
      if h : a = b then isTrue (by rw [h])
      else isFalse (by intro hc; injection hc with h2; exact h h2)
  | .ok _, .error _ => isFalse (fun hc => Except.noConfusion hc)
  | .error _, .ok _ => isFalse (fun hc => Except.noConfusion hc)

/-- Schema entry of one table in the `get_db_schema` response. -/
structure TableSchemaEntry where
  columns : List LiveColumn
  foreign_keys : List LiveFk
deriving DecidableEq

/-- GET /api/db/schema (main.py lines 156-187): every table of the catalog with
its introspected columns and foreign keys. -/
def get_db_schema (cat : Catalog) : List (String × TableSchemaEntry) :=
  cat.map (fun t => (t.name, ⟨t.columns, t.fks⟩))

/-- The single structured statement the create path executes
(the statement whose text is `createTableSqlCreate t`). -/
def createStmt (t : TableCreate) : Stmt :=
  .create t.name (t.columns.map liveColCreate) (t.columns.filterMap liveFk)

/-- POST /api/db/tables/ (main.py lines 206-271).  There is no pre-check of any
kind: the CREATE TABLE statement is built and executed directly.  On failure
the inner handler rolls the transaction back and raises HTTPException(400,
"Failed to create table: ..."), which the outer blanket `except Exception`
then re-wraps as HTTPException(500, "Database error: ...") — create_table has
no `except HTTPException: raise` clause.  On success the new table is
re-introspected; the response hardcodes `foreign_keys: []`. -/
def create_table (t : TableCreate) (cat : Catalog) : Catalog × Except ApiError TableResult :=
  match execStmt cat (createStmt t) with
  | .error e =>
      (cat, .error (.http500 ("Database error: 400: Failed to create table: " ++ e)))
  | .ok cat1 =>
      match lookupTable cat1 t.name with
      | some tbl => (cat1, .ok ⟨t.name, tbl.columns, []⟩)
      | none => (cat1, .ok ⟨t.name, [], []⟩)

/-- Temp-table name (main.py line 307): the original name plus a
time-derived suffix, the timestamp passed here as `ts`. -/
def tempName (tableName : String) (ts : Nat) : String :=
  tableName ++ "_temp_" ++ toString ts

/-- The copy column list (main.py lines 339-340): names of the new spec's
columns that also exist in the old schema, in the order of the new spec. -/
def commonColumns (tu : TableUpdate) (oldCols : List LiveColumn) : List String :=
  (tu.columns.filter (fun c => c.name ∈ oldCols.map (·.name))).map (·.name)

/-- Whether the final rename runs (main.py line 354,
`if table_update.name and table_update.name != table_name`): Python truthiness
makes both `None` and the empty string skip it. -/
def renamesTo (tableName : String) (tu : TableUpdate) : Option String :=
  match tu.name with
  | some n => if n ≠ "" ∧ n ≠ tableName then some n else none
  | none => none

/-- The table's externally visible name after a successful update. -/
def finalName (tableName : String) (tu : TableUpdate) : String :=
  match renamesTo tableName tu with
  | some n => n
  | none => tableName

/-- The migration statement sequence of the update path (main.py lines
333-356): create temp, copy the common columns when the spec and the
intersection are non-empty, drop the original, rename temp into place, then
the optional final rename. -/
def updateStmts (ts : Nat) (tableName : String) (tu : TableUpdate)
    (oldCols : List LiveColumn) : List Stmt :=
  let temp := tempName tableName ts
  [Stmt.create temp (tu.columns.map liveColUpdate) (tu.columns.filterMap liveFk)]
    ++ (if tu.columns ≠ [] ∧ commonColumns tu oldCols ≠ [] then
          [Stmt.copy temp (commonColumns tu oldCols) tableName]
        else [])
    ++ [Stmt.drop tableName, Stmt.rename temp tableName]
    ++ (match renamesTo tableName tu with
        | some n => [Stmt.rename tableName n]
        | none => [])

/-- PUT /api/db/tables/(table_name) (main.py lines 277-388).  A transaction is
opened first; the existence check runs before any statement.  The inner
blanket `except Exception` also catches the HTTPException(404) raised by that
check, so every failure — including table-not-found — reaches the caller as
HTTPException(400, "Failed to update table: ...") after rollback.  On success
the final table is re-introspected. -/
def update_table (ts : Nat) (tableName : String) (tu : TableUpdate) (cat : Catalog) :
    Catalog × Except ApiError TableResult :=
  match lookupTable cat tableName with
  | none =>
      (cat, .error (.http400 ("Failed to update table: 404: Table "
        ++ tableName ++ " not found")))
  | some old =>
      match runStmts cat (updateStmts ts tableName tu old.columns) with
      | .error e => (cat, .error (.http400 ("Failed to update table: " ++ e)))
      | .ok cat1 =>
          match lookupTable cat1 (finalName tableName tu) with
          | some tbl => (cat1, .ok ⟨finalName tableName tu, tbl.columns, tbl.fks⟩)
          | none => (cat1, .ok ⟨finalName tableName tu, [], []⟩)

/-! ## Catalog lemmas -/

theorem mem_tableNames {cat : Catalog} {n : String} :
    n ∈ tableNames cat ↔ ∃ t ∈ cat, t.name = n := by
  simp [tableNames]

theorem lookupTable_eq_none_iff {cat : Catalog} {n : String} :
    lookupTable cat n = none ↔ n ∉ tableNames cat := by
  simp [lookupTable, List.find?_eq_none, tableNames]

theorem lookupTable_eq_some_name {cat : Catalog} {n : String} {t : LiveTable}
    (h : lookupTable cat n = some t) : t.name = n ∧ t ∈ cat := by
  refine ⟨?_, List.mem_of_find?_eq_some h⟩
  have := List.find?_some h
  simpa using this

theorem mem_tableNames_of_lookup {cat : Catalog} {n : String} {t : LiveTable}
    (h : lookupTable cat n = some t) : n ∈ tableNames cat := by
  obtain ⟨hn, hm⟩ := lookupTable_eq_some_name h
  exact mem_tableNames.mpr ⟨t, hm, hn⟩

theorem lookupTable_append {c1 c2 : Catalog} {n : String} :
    lookupTable (c1 ++ c2) n = (lookupTable c1 n).or (lookupTable c2 n) := by
  simp [lookupTable, List.find?_append]

theorem lookupTable_singleton_self {t : LiveTable} : lookupTable [t] t.name = some t := by
  simp [lookupTable]

theorem lookupTable_singleton_ne {t : LiveTable} {n : String} (h : t.name ≠ n) :
    lookupTable [t] n = none := by
  simp [lookupTable, h]

/-- Names surviving a filter are names of the catalog. -/
theorem tableNames_filter_subset {cat : Catalog} {p : LiveTable → Bool} {n : String}
    (h : n ∈ tableNames (cat.filter p)) : n ∈ tableNames cat := by
  rw [mem_tableNames] at h ⊢
  obtain ⟨t, ht, rfl⟩ := h
  exact ⟨t, (List.mem_filter.mp ht).1, rfl⟩

/-- The name a filter removed is gone from the filtered names. -/
theorem not_mem_tableNames_filter_ne {cat : Catalog} {n : String} :
    n ∉ tableNames (cat.filter (fun t => t.name ≠ n)) := by
  rw [mem_tableNames]
  rintro ⟨t, ht, rfl⟩
  have := (List.mem_filter.mp ht).2
  simp at this

/-! ## Statement-semantics lemmas -/

theorem execStmt_create_ok {cat cat1 : Catalog} {n : String} {cols : List LiveColumn}
    {fks : List LiveFk} :
    execStmt cat (.create n cols fks) = .ok cat1 ↔
      cols ≠ [] ∧ n ∉ tableNames cat ∧ (cols.map (·.name)).Nodup ∧ pkCount cols ≤ 1 ∧
      cat1 = cat ++ [⟨n, cols, fks, []⟩] := by
  constructor
  · intro h
    simp only [execStmt] at h
    by_cases h1 : cols = []
    · rw [if_pos h1] at h
      exact Except.noConfusion h
    rw [if_neg h1] at h
    by_cases h2 : n ∈ tableNames cat
    · rw [if_pos h2] at h
      exact Except.noConfusion h
    rw [if_neg h2] at h
    by_cases h3 : (cols.map (·.name)).Nodup
    · rw [if_neg (not_not.mpr h3)] at h
      by_cases h4 : 1 < pkCount cols
      · rw [if_pos h4] at h
        exact Except.noConfusion h
      · rw [if_neg h4] at h
        injection h with h5
        exact ⟨h1, h2, h3, Nat.not_lt.mp h4, h5.symm⟩
    · rw [if_pos h3] at h
      exact Except.noConfusion h
  · rintro ⟨h1, h2, h3, h4, rfl⟩
    simp only [execStmt]
    rw [if_neg h1, if_neg h2, if_neg (not_not.mpr h3), if_neg (Nat.not_lt.mpr h4)]

theorem execStmt_copy_ok {cat cat1 : Catalog} {dst src : String} {cols : List String} :
    execStmt cat (.copy dst cols src) = .ok cat1 ↔
      ∃ d s, lookupTable cat dst = some d ∧ lookupTable cat src = some s ∧
        (∀ c ∈ cols, c ∈ d.columns.map (·.name)) ∧
        (∀ c ∈ cols, c ∈ s.columns.map (·.name)) ∧
        cat1 = cat.map (fun t =>
          if t.name = dst then
            { t with rows := t.rows ++ s.rows.map (fillRow d.columns cols) }
          else t) := by
  constructor
  · intro h
    cases hd : lookupTable cat dst with
    | none =>
      simp only [execStmt, hd] at h
      exact Except.noConfusion h
    | some d =>
      cases hs : lookupTable cat src with
      | none =>
        simp only [execStmt, hd, hs] at h
        exact Except.noConfusion h
      | some s =>
        simp only [execStmt, hd, hs] at h
        by_cases hc : (∀ c ∈ cols, c ∈ d.columns.map (·.name)) ∧
            (∀ c ∈ cols, c ∈ s.columns.map (·.name))
        · rw [if_pos hc] at h
          injection h with h5
          exact ⟨d, s, rfl, rfl, hc.1, hc.2, h5.symm⟩
        · rw [if_neg hc] at h
          exact Except.noConfusion h
  · rintro ⟨d, s, hd, hs, hc1, hc2, rfl⟩
    simp only [execStmt, hd, hs]
    rw [if_pos ⟨hc1, hc2⟩]

theorem execStmt_drop_ok {cat cat1 : Catalog} {n : String} :
    execStmt cat (.drop n) = .ok cat1 ↔
      n ∈ tableNames cat ∧ cat1 = cat.filter (fun t => t.name ≠ n) := by
  constructor
  · intro h
    simp only [execStmt] at h
    by_cases h1 : n ∈ tableNames cat
    · rw [if_pos h1] at h
      injection h with h5
      exact ⟨h1, h5.symm⟩
    · rw [if_neg h1] at h
      exact Except.noConfusion h
  · rintro ⟨h1, rfl⟩
    simp only [execStmt]
    rw [if_pos h1]

theorem execStmt_rename_ok {cat cat1 : Catalog} {o n : String} :
    execStmt cat (.rename o n) = .ok cat1 ↔
      (lookupTable cat o).isSome ∧ n ∉ tableNames cat ∧
      cat1 = cat.map (fun t => if t.name = o then { t with name := n } else t) := by
  constructor
  · intro h
    simp only [execStmt] at h
    by_cases h1 : (lookupTable cat o).isNone = true
    · rw [if_pos h1] at h
      exact Except.noConfusion h
    rw [if_neg h1] at h
    by_cases h2 : n ∈ tableNames cat
    · rw [if_pos h2] at h
      exact Except.noConfusion h
    rw [if_neg h2] at h
    injection h with h5
    refine ⟨?_, h2, h5.symm⟩
    cases ho : lookupTable cat o with
    | none => exact absurd (by rw [ho]; rfl) h1
    | some t => rfl
  · rintro ⟨h1, h2, rfl⟩
    have h0 : ¬ (lookupTable cat o).isNone = true := by
      rw [Option.isNone_iff_eq_none]
      exact Option.isSome_iff_ne_none.mp h1
    simp only [execStmt]
    rw [if_neg h0, if_neg h2]

theorem runStmts_nil_ok {cat cat1 : Catalog} :
    runStmts cat [] = .ok cat1 ↔ cat1 = cat := by
  simp [runStmts, eq_comm]

theorem runStmts_cons_ok {cat cat1 : Catalog} {s : Stmt} {rest : List Stmt} :
    runStmts cat (s :: rest) = .ok cat1 ↔
      ∃ c, execStmt cat s = .ok c ∧ runStmts c rest = .ok cat1 := by
  simp only [runStmts]
  cases h : execStmt cat s <;> simp

theorem tableNames_append {c1 c2 : Catalog} :
    tableNames (c1 ++ c2) = tableNames c1 ++ tableNames c2 :=
  List.map_append _ _ _

theorem list_map_id_of_eq {α : Type} {l : List α} {f : α → α} (h : ∀ a ∈ l, f a = a) :
    l.map f = l :=
  (List.map_congr_left h).trans (List.map_id l)

theorem not_mem_tableNames_filter_of_not_mem {cat : Catalog} {p : LiveTable → Bool}
    {n : String} (h : n ∉ tableNames cat) : n ∉ tableNames (cat.filter p) :=
  fun hm => h (tableNames_filter_subset hm)

theorem lookup_filter_ne_self {cat : Catalog} {n : String} :
    lookupTable (cat.filter (fun t => t.name ≠ n)) n = none :=
  lookupTable_eq_none_iff.mpr not_mem_tableNames_filter_ne

/-- Anatomy of a successful create (main.py lines 206-271): the only change is
one fresh table appended to the catalog, carrying the compiled columns. -/
theorem create_table_ok_shape {t : TableCreate} {cat cat1 : Catalog} {r : TableResult}
    (hok : create_table t cat = (cat1, .ok r)) :
    t.name ∉ tableNames cat ∧ t.columns ≠ [] ∧
    ((t.columns.map liveColCreate).map (·.name)).Nodup ∧
    pkCount (t.columns.map liveColCreate) ≤ 1 ∧
    cat1 = cat ++ [⟨t.name, t.columns.map liveColCreate, t.columns.filterMap liveFk, []⟩] ∧
    r = ⟨t.name, t.columns.map liveColCreate, []⟩ := by
  cases he : execStmt cat (createStmt t) with
  | error e =>
    simp only [create_table, he] at hok
    injection hok with ha hb
    exact Except.noConfusion hb
  | ok c1 =>
    simp only [create_table, he] at hok
    rw [createStmt, execStmt_create_ok] at he
    obtain ⟨h1, h2, h3, h4, rfl⟩ := he
    have hcols : t.columns ≠ [] := by
      intro hc
      rw [hc] at h1
      exact h1 rfl
    have hlk : lookupTable
        (cat ++ [(⟨t.name, t.columns.map liveColCreate, t.columns.filterMap liveFk, []⟩ :
          LiveTable)]) t.name =
        some ⟨t.name, t.columns.map liveColCreate, t.columns.filterMap liveFk, []⟩ := by
      rw [lookupTable_append, lookupTable_eq_none_iff.mpr h2, Option.none_or]
      exact lookupTable_singleton_self
    rw [hlk] at hok
    injection hok with ha hb
    injection hb with hb
    exact ⟨h2, hcols, h3, h4, ha.symm, hb.symm⟩

theorem renamesTo_eq_some {tn n : String} {tu : TableUpdate}
    (h : renamesTo tn tu = some n) : tu.name = some n ∧ n ≠ "" ∧ n ≠ tn := by
  cases hm : tu.name with
  | none =>
    simp only [renamesTo, hm] at h
    exact Option.noConfusion h
  | some m =>
    simp only [renamesTo, hm] at h
    by_cases hc : m ≠ "" ∧ m ≠ tn
    · rw [if_pos hc] at h
      injection h with h5
      subst h5
      exact ⟨rfl, hc.1, hc.2⟩
    · rw [if_neg hc] at h
      exact Option.noConfusion h

theorem filter_ne_singleton {t : LiveTable} {n : String} (h : t.name ≠ n) :
    List.filter (fun x => x.name ≠ n) [t] = [t] := by
  simp [List.filter_cons, h]

theorem finalName_of_renamesTo_some {tn n : String} {tu : TableUpdate}
    (h : renamesTo tn tu = some n) : finalName tn tu = n := by
  rw [finalName, h]

theorem finalName_of_renamesTo_none {tn : String} {tu : TableUpdate}
    (h : renamesTo tn tu = none) : finalName tn tu = tn := by
  rw [finalName, h]

/-- Anatomy of a successful update (main.py lines 277-388): the statement
sequence ran whole; what remains of the catalog is every table other than the
original (in place) plus one table at the end under the final name, carrying
the compiled new columns and, as rows, the copy of the overlapping columns of
the old table (none when the intersection was empty). -/
theorem update_table_ok_shape {ts : Nat} {tn : String} {tu : TableUpdate}
    {cat cat1 : Catalog} {r : TableResult}
    (hok : update_table ts tn tu cat = (cat1, .ok r)) :
    ∃ old, lookupTable cat tn = some old ∧
      tu.columns ≠ [] ∧
      ((tu.columns.map liveColUpdate).map (·.name)).Nodup ∧
      pkCount (tu.columns.map liveColUpdate) ≤ 1 ∧
      tempName tn ts ∉ tableNames cat ∧
      finalName tn tu ∉ tableNames (cat.filter (fun t => t.name ≠ tn)) ∧
      cat1 = cat.filter (fun t => t.name ≠ tn)
        ++ [⟨finalName tn tu, tu.columns.map liveColUpdate, tu.columns.filterMap liveFk,
             if commonColumns tu old.columns = [] then []
             else old.rows.map (fillRow (tu.columns.map liveColUpdate)
                    (commonColumns tu old.columns))⟩] ∧
      r = ⟨finalName tn tu, tu.columns.map liveColUpdate, tu.columns.filterMap liveFk⟩ := by
  cases hlk : lookupTable cat tn with
  | none =>
    simp only [update_table, hlk] at hok
    injection hok with ha hb
    exact Except.noConfusion hb
  | some old =>
    simp only [update_table, hlk] at hok
    cases hrun : runStmts cat (updateStmts ts tn tu old.columns) with
    | error e =>
      simp only [hrun] at hok
      injection hok with ha hb
      exact Except.noConfusion hb
    | ok c1 =>
      simp only [hrun] at hok
      refine ⟨old, rfl, ?_⟩
      have htn_mem : tn ∈ tableNames cat := mem_tableNames_of_lookup hlk
      -- normalize the statement list to cons form
      simp only [updateStmts, List.append_assoc, List.singleton_append, List.cons_append,
        List.nil_append] at hrun
      -- step 1: CREATE TABLE temp
      rw [runStmts_cons_ok] at hrun
      obtain ⟨cA, hcr, hrun⟩ := hrun
      rw [execStmt_create_ok] at hcr
      obtain ⟨hne, htempnot, hnd, hpk, rfl⟩ := hcr
      have hcols_ne : tu.columns ≠ [] := by
        intro hc
        rw [hc] at hne
        exact hne rfl
      have htemp_ne_tn : tempName tn ts ≠ tn := by
        intro he
        rw [he] at htempnot
        exact htempnot htn_mem
      refine ⟨hcols_ne, hnd, hpk, htempnot, ?_⟩
      -- step 2: optional copy; both cases land in the same shape
      have hrest : runStmts
          (cat ++ [(⟨tempName tn ts, tu.columns.map liveColUpdate,
              tu.columns.filterMap liveFk,
              if commonColumns tu old.columns = [] then []
              else old.rows.map (fillRow (tu.columns.map liveColUpdate)
                     (commonColumns tu old.columns))⟩ : LiveTable)])
          (Stmt.drop tn :: Stmt.rename (tempName tn ts) tn ::
            (match renamesTo tn tu with
             | some n => [Stmt.rename tn n]
             | none => [])) = .ok c1 := by
        by_cases hg : commonColumns tu old.columns = []
        · rw [if_pos hg]
          have : ¬ (tu.columns ≠ [] ∧ commonColumns tu old.columns ≠ []) := by
            rintro ⟨-, h2⟩
            exact h2 hg
          rw [if_neg this, List.nil_append] at hrun
          exact hrun
        · rw [if_neg hg]
          rw [if_pos ⟨hcols_ne, hg⟩, List.cons_append, List.nil_append] at hrun
          rw [runStmts_cons_ok] at hrun
          obtain ⟨cB, hcp, hrun⟩ := hrun
          rw [execStmt_copy_ok] at hcp
          obtain ⟨d, s, hd, hs, hc1, hc2, rfl⟩ := hcp
          rw [lookupTable_append, lookupTable_eq_none_iff.mpr htempnot, Option.none_or,
            lookupTable_singleton_self] at hd
          injection hd with hd
          rw [lookupTable_append, hlk, Option.or_some] at hs
          injection hs with hs
          subst hd
          subst hs
          rw [List.map_append] at hrun
          rw [list_map_id_of_eq (fun a ha =>
            if_neg (fun hname =>
              htempnot (mem_tableNames.mpr ⟨a, ha, hname⟩)))] at hrun
          simp only [List.map_cons, List.map_nil, eq_self_iff_true, if_true,
            List.nil_append] at hrun
          exact hrun
      clear hrun
      -- step 3: DROP TABLE tn
      rw [runStmts_cons_ok] at hrest
      obtain ⟨cC, hdr, hrest⟩ := hrest
      rw [execStmt_drop_ok] at hdr
      obtain ⟨-, rfl⟩ := hdr
      rw [List.filter_append] at hrest
      rw [filter_ne_singleton htemp_ne_tn] at hrest
      -- step 4: rename temp into place
      rw [runStmts_cons_ok] at hrest
      obtain ⟨cD, hrn, hrest⟩ := hrest
      rw [execStmt_rename_ok] at hrn
      obtain ⟨-, htn_not, rfl⟩ := hrn
      have hfilter_no_temp : tempName tn ts ∉
          tableNames (cat.filter (fun t => t.name ≠ tn)) :=
        not_mem_tableNames_filter_of_not_mem htempnot
      rw [List.map_append] at hrest
      rw [list_map_id_of_eq (fun a ha =>
        if_neg (fun hname =>
          htempnot (mem_tableNames.mpr ⟨a, (List.mem_filter.mp ha).1, hname⟩)))] at hrest
      simp only [List.map_cons, List.map_nil, eq_self_iff_true, if_true,
        List.nil_append] at hrest
      -- step 5: optional final rename, then read the result off
      cases hr : renamesTo tn tu with
      | none =>
        rw [hr] at hrest
        rw [runStmts_nil_ok] at hrest
        subst hrest
        rw [finalName_of_renamesTo_none hr] at hok ⊢
        have hfn_not : tn ∉ tableNames (cat.filter (fun t => t.name ≠ tn)) :=
          not_mem_tableNames_filter_ne
        refine ⟨hfn_not, ?_⟩
        have hlk1 : lookupTable (cat.filter (fun t => t.name ≠ tn)
            ++ [(⟨tn, tu.columns.map liveColUpdate, tu.columns.filterMap liveFk,
                if commonColumns tu old.columns = [] then []
                else old.rows.map (fillRow (tu.columns.map liveColUpdate)
                       (commonColumns tu old.columns))⟩ : LiveTable)]) tn =
            some ⟨tn, tu.columns.map liveColUpdate, tu.columns.filterMap liveFk,
                if commonColumns tu old.columns = [] then []
                else old.rows.map (fillRow (tu.columns.map liveColUpdate)
                       (commonColumns tu old.columns))⟩ := by
          rw [lookupTable_append, lookup_filter_ne_self, Option.none_or]
          exact lookupTable_singleton_self
        rw [hlk1] at hok
        injection hok with ha hb
        injection hb with hb
        exact ⟨ha.symm, hb.symm⟩
      | some n =>
        rw [hr] at hrest
        obtain ⟨-, hne2, hn_ne_tn⟩ := renamesTo_eq_some hr
        rw [runStmts_cons_ok] at hrest
        obtain ⟨cE, hrn2, hrest⟩ := hrest
        rw [runStmts_nil_ok] at hrest
        subst hrest
        rw [execStmt_rename_ok] at hrn2
        obtain ⟨-, hn_not, rfl⟩ := hrn2
        rw [finalName_of_renamesTo_some hr] at hok ⊢
        rw [tableNames_append] at hn_not
        have hn_not_filter : n ∉ tableNames (cat.filter (fun t => t.name ≠ tn)) := by
          intro hm
          exact hn_not (List.mem_append.mpr (Or.inl hm))
        refine ⟨hn_not_filter, ?_⟩
        rw [List.map_append] at hok
        rw [list_map_id_of_eq (fun a ha =>
          if_neg (of_decide_eq_true (List.mem_filter.mp ha).2))] at hok
        simp only [List.map_cons, List.map_nil, eq_self_iff_true, if_true,
          List.nil_append] at hok
        have hlk2 : lookupTable (cat.filter (fun t => t.name ≠ tn)
            ++ [(⟨n, tu.columns.map liveColUpdate, tu.columns.filterMap liveFk,
                if commonColumns tu old.columns = [] then []
                else old.rows.map (fillRow (tu.columns.map liveColUpdate)
                       (commonColumns tu old.columns))⟩ : LiveTable)]) n =
            some ⟨n, tu.columns.map liveColUpdate, tu.columns.filterMap liveFk,
                if commonColumns tu old.columns = [] then []
                else old.rows.map (fillRow (tu.columns.map liveColUpdate)
                       (commonColumns tu old.columns))⟩ := by
          rw [lookupTable_append, lookupTable_eq_none_iff.mpr hn_not_filter, Option.none_or]
          exact lookupTable_singleton_self
        rw [hlk2] at hok
        injection hok with ha hb
        injection hb with hb
        exact ⟨ha.symm, hb.symm⟩

/-! ## Concrete fixtures used by witnesses and counterexamples -/

/-- A one-column INTEGER spec column. -/
def exCol : ColumnCreate := ⟨"a", "INTEGER", true, none, false, none⟩

/-- A live table named "t" with one INTEGER column and one row. -/
def exTblT : LiveTable := ⟨"t", [⟨"a", "INTEGER", true, none, false⟩], [], [[("a", some "1")]]⟩

/-- A one-table catalog holding `exTblT`. -/
def exCatT : Catalog := [exTblT]

/-! ## Claims -/

/-- C1: for every updateTable call on an existing table whose migration
statement sequence fails, the whole transaction is rolled back and the catalog
is exactly as before the call — the table under `tn` still has its old columns
and rows, a table under the temp name exists afterwards only if it already
existed before (so the migration left no temp table behind), and the caller
receives an error. -/
theorem C1_update_failure_rolls_back (ts : Nat) (tn : String) (tu : TableUpdate)
    (cat : Catalog) (old : LiveTable) (e : String)
    (hmem : lookupTable cat tn = some old)
    (hfail : runStmts cat (updateStmts ts tn tu old.columns) = .error e) :
    (update_table ts tn tu cat).1 = cat ∧
    (update_table ts tn tu cat).2 =
      .error (.http400 ("Failed to update table: " ++ e)) ∧
    lookupTable (update_table ts tn tu cat).1 tn = some old ∧
    (tempName tn ts ∈ tableNames (update_table ts tn tu cat).1 ↔
      tempName tn ts ∈ tableNames cat) := by
  refine ⟨?_, ?_, ?_, ?_⟩ <;> simp [update_table, hmem, hfail]

/-- C1 witness: updating existing table "t" with an empty column list fails
(the temp CREATE TABLE is a syntax error), the caller gets the 400 wrapper,
and the catalog is untouched. -/
theorem C1_update_failure_rolls_back_witness :
    lookupTable exCatT "t" = some exTblT ∧
    (update_table 1 "t" ⟨none, []⟩ exCatT).1 = exCatT ∧
    (update_table 1 "t" ⟨none, []⟩ exCatT).2 =
      .error (.http400 ("Failed to update table: " ++ "incomplete input")) :=
  ⟨rfl,
   (C1_update_failure_rolls_back 1 "t" ⟨none, []⟩ exCatT exTblT "incomplete input"
     rfl (by decide)).1,
   (C1_update_failure_rolls_back 1 "t" ⟨none, []⟩ exCatT exTblT "incomplete input"
     rfl (by decide)).2.1⟩

/-- C6 counterexample: updating a table absent from the catalog does fail and
leaves the catalog unchanged, but the caller does not receive the
TableNotFound (HTTP 404) kind the claim requires: the inner blanket
`except Exception` of update_table converts its own HTTPException(404) into a
400 "Failed to update table" — and the transaction was already opened when
the check ran. -/
theorem C6_counterexample :
    (update_table 0 "missing" ⟨none, [exCol]⟩ []).2 =
      .error (.http400 "Failed to update table: 404: Table missing not found") ∧
    (update_table 0 "missing" ⟨none, [exCol]⟩ []).2 ≠
      .error (.http404 "Table missing not found") := by
  exact ⟨by decide, by decide⟩

/-- C6 amended: when `tn` is not in the live catalog the update fails before
any migration statement executes, the catalog is returned unchanged (the
already-opened transaction is rolled back), and the caller receives an
HTTP 400 error wrapping the 404 table-not-found detail rather than the 404
itself. -/
theorem C6_update_missing_table_amended (ts : Nat) (tn : String) (tu : TableUpdate)
    (cat : Catalog) (habs : lookupTable cat tn = none) :
    update_table ts tn tu cat =
      (cat, .error (.http400 ("Failed to update table: 404: Table "
        ++ tn ++ " not found"))) := by
  simp only [update_table, habs]

/-- C6 amended witness at a concrete input. -/
theorem C6_update_missing_table_amended_witness :
    lookupTable ([] : Catalog) "missing" = none ∧
    update_table 0 "missing" ⟨none, [exCol]⟩ [] =
      ([], .error (.http400 "Failed to update table: 404: Table missing not found")) := by
  refine ⟨rfl, ?_⟩
  have h := C6_update_missing_table_amended 0 "missing" ⟨none, [exCol]⟩ [] rfl
  exact h

/-- C7 counterexample: when the generated temp name collides with an existing
table, the operation is not aborted by a TempNameCollision precondition: the
CREATE TABLE statement for the temp table is executed and fails at the engine
("table ... already exists"), the transaction is rolled back, and the caller
receives the generic 400 wrapper. -/
theorem C7_counterexample :
    update_table 5 "t" ⟨none, [exCol]⟩
        (exCatT ++ [⟨"t_temp_5", [⟨"a", "INTEGER", true, none, false⟩], [], []⟩]) =
      (exCatT ++ [⟨"t_temp_5", [⟨"a", "INTEGER", true, none, false⟩], [], []⟩],
       .error (.http400 "Failed to update table: table t_temp_5 already exists")) := by
  decide

/-- C7 amended: a collision of the generated temp name with an existing table
name makes the first executed statement (the temp CREATE TABLE) fail at the
engine; the transaction is rolled back, so the catalog is unchanged and the
caller receives a generic HTTP 400 error — there is no precondition check and
no TempNameCollision error kind. -/
theorem C7_temp_collision_amended (ts : Nat) (tn : String) (tu : TableUpdate)
    (cat : Catalog) (old : LiveTable) (hmem : lookupTable cat tn = some old)
    (hcoll : tempName tn ts ∈ tableNames cat) :
    (update_table ts tn tu cat).1 = cat ∧
    ∃ d, (update_table ts tn tu cat).2 = .error (.http400 d) := by
  simp only [update_table, hmem]
  cases hrun : runStmts cat (updateStmts ts tn tu old.columns) with
  | error e =>
    simp only [hrun]
    simp
  | ok c1 =>
    exfalso
    simp only [updateStmts, List.append_assoc, List.singleton_append, List.cons_append,
      List.nil_append] at hrun
    rw [runStmts_cons_ok] at hrun
    obtain ⟨c, hcr, -⟩ := hrun
    rw [execStmt_create_ok] at hcr
    exact hcr.2.1 hcoll

/-- C7 amended witness at a concrete input. -/
theorem C7_temp_collision_amended_witness :
    lookupTable (exCatT ++ [⟨"t_temp_5", [⟨"a", "INTEGER", true, none, false⟩], [], []⟩])
        "t" = some exTblT ∧
    tempName "t" 5 ∈ tableNames
      (exCatT ++ [⟨"t_temp_5", [⟨"a", "INTEGER", true, none, false⟩], [], []⟩]) ∧
    (update_table 5 "t" ⟨none, [exCol]⟩
        (exCatT ++ [⟨"t_temp_5", [⟨"a", "INTEGER", true, none, false⟩], [], []⟩])).1 =
      exCatT ++ [⟨"t_temp_5", [⟨"a", "INTEGER", true, none, false⟩], [], []⟩] :=
  ⟨by decide, by decide,
   (C7_temp_collision_amended 5 "t" ⟨none, [exCol]⟩ _ exTblT (by decide) (by decide)).1⟩

/-- A live "projects" table as the fixed schema would create it. -/
def exCatProjects : Catalog := [⟨"projects", [⟨"id", "INTEGER", true, none, true⟩], [], []⟩]

/-- The spec ⟨"w", one NOT NULL INTEGER primary-key column⟩. -/
def exSpecW : TableCreate := ⟨"w", [⟨"id", "INTEGER", false, none, true, none⟩]⟩

/-- The catalog produced by creating `exSpecW` on an empty catalog. -/
def exCatW : Catalog := [⟨"w", [⟨"id", "INTEGER", false, none, true⟩], [], []⟩]

/-- C3: a successful createTable(spec) followed immediately by getSchema()
yields, under spec.name, columns with the same names, types, nullability
flags and primary-key flags as the spec, in spec column order (the engine
model stores the type text verbatim — the identity case of "up to the
engine's canonical type-name form"). -/
theorem C3_create_getSchema_roundtrip {t : TableCreate} {cat cat1 : Catalog}
    {r : TableResult} (hok : create_table t cat = (cat1, .ok r)) :
    ∃ e : TableSchemaEntry,
      (get_db_schema cat1).find? (fun p => p.1 == t.name) = some (t.name, e) ∧
      e.columns.map (·.name) = t.columns.map (·.name) ∧
      e.columns.map (·.type) = t.columns.map (·.type) ∧
      e.columns.map (·.nullable) = t.columns.map (·.nullable) ∧
      e.columns.map (·.primary_key) = t.columns.map (·.primary_key) := by
  obtain ⟨hnot, hne, hnd, hpk, rfl, rfl⟩ := create_table_ok_shape hok
  refine ⟨⟨t.columns.map liveColCreate, t.columns.filterMap liveFk⟩, ?_, ?_, ?_, ?_, ?_⟩
  · unfold get_db_schema
    rw [List.map_append, List.find?_append]
    have h0 : ((cat.map (fun tb =>
        (tb.name, (⟨tb.columns, tb.fks⟩ : TableSchemaEntry)))).find?
        (fun p => p.1 == t.name)) = none := by
      rw [List.find?_eq_none]
      intro p hp
      obtain ⟨tb, htb, rfl⟩ := List.mem_map.mp hp
      simp only [beq_iff_eq]
      intro he
      exact hnot (mem_tableNames.mpr ⟨tb, htb, he⟩)
    rw [h0, Option.none_or, List.map_cons, List.map_nil,
      List.find?_cons_of_pos _ (by simp)]
  · rw [List.map_map]
    rfl
  · rw [List.map_map]
    rfl
  · rw [List.map_map]
    rfl
  · rw [List.map_map]
    rfl

/-- C3 witness at a concrete input. -/
theorem C3_create_getSchema_roundtrip_witness :
    create_table exSpecW [] =
      (exCatW, .ok ⟨"w", [⟨"id", "INTEGER", false, none, true⟩], []⟩) ∧
    ∃ e : TableSchemaEntry,
      (get_db_schema exCatW).find? (fun p => p.1 == exSpecW.name) = some (exSpecW.name, e) ∧
      e.columns.map (·.name) = exSpecW.columns.map (·.name) ∧
      e.columns.map (·.type) = exSpecW.columns.map (·.type) ∧
      e.columns.map (·.nullable) = exSpecW.columns.map (·.nullable) ∧
      e.columns.map (·.primary_key) = exSpecW.columns.map (·.primary_key) :=
  ⟨by decide,
   @C3_create_getSchema_roundtrip exSpecW [] exCatW
     ⟨"w", [⟨"id", "INTEGER", false, none, true⟩], []⟩ (by decide)⟩

/-- C5 counterexample: creating "projects" when it already exists does fail
and leaves the catalog unchanged, but not the way the claim states: there is
no introspection pre-check, the CREATE TABLE statement is executed and
rejected by the engine, and the caller receives the blanket 500 "Database
error" wrapper (create_table has no `except HTTPException` clause, so it
swallows its own 400), not a DuplicateTableName kind. -/
theorem C5_counterexample :
    create_table ⟨"projects", [exCol]⟩ exCatProjects =
      (exCatProjects, .error (.http500
        "Database error: 400: Failed to create table: table projects already exists")) := by
  decide

/-- C5 amended: a createTable whose spec names an existing table fails — the
duplicate is detected by the engine rejecting the executed CREATE TABLE
statement, not via introspection before emission — the transaction is rolled
back so the catalog is completely unchanged, and the caller receives the
generic HTTP 500 "Database error" wrapper rather than a DuplicateTableName
kind. -/
theorem C5_duplicate_create_amended (t : TableCreate) (cat : Catalog)
    (hdup : t.name ∈ tableNames cat) :
    (create_table t cat).1 = cat ∧
    ∃ d, (create_table t cat).2 = .error (.http500 d) := by
  cases he : execStmt cat (createStmt t) with
  | error e =>
    simp only [create_table, he]
    simp
  | ok c1 =>
    exfalso
    rw [createStmt, execStmt_create_ok] at he
    exact he.2.1 hdup

/-- C5 amended witness at a concrete input. -/
theorem C5_duplicate_create_amended_witness :
    "projects" ∈ tableNames exCatProjects ∧
    (create_table ⟨"projects", [exCol]⟩ exCatProjects).1 = exCatProjects :=
  ⟨by decide,
   (C5_duplicate_create_amended ⟨"projects", [exCol]⟩ exCatProjects (by decide)).1⟩

/-- Every table of the catalog has at most one PRIMARY KEY column. -/
def pkInvariant (cat : Catalog) : Prop := ∀ t ∈ cat, pkCount t.columns ≤ 1

/-- C10: for a column flagged primaryKey both compilers emit the inline
PRIMARY KEY clause at the end of that column's definition (and there is no
composite primary-key table constraint anywhere in the grammar they emit);
consequently — since the engine rejects a CREATE TABLE with more than one
inline PRIMARY KEY — no createTable or updateTable can ever produce a
catalog table whose primary key spans multiple columns: at most one column
per table carries the primary-key flag, an invariant both operations
preserve. -/
theorem C10_single_pk_only_inline :
    (∀ c : ColumnCreate, c.primary_key = true →
      (∃ s, colDefCreate c = s ++ " PRIMARY KEY") ∧
      (∃ s, colDefUpdate c = s ++ " PRIMARY KEY")) ∧
    (∀ t cat cat1 r, pkInvariant cat →
      create_table t cat = (cat1, .ok r) → pkInvariant cat1) ∧
    (∀ ts tn tu cat cat1 r, pkInvariant cat →
      update_table ts tn tu cat = (cat1, .ok r) → pkInvariant cat1) := by
  refine ⟨?_, ?_, ?_⟩
  · intro c hpk
    constructor
    · refine ⟨"\"" ++ c.name ++ "\" " ++ c.type
        ++ (if !c.nullable then " NOT NULL" else "")
        ++ (match c.default with | some d => " DEFAULT " ++ d | none => ""), ?_⟩
      simp only [colDefCreate, hpk, eq_self_iff_true, if_true]
    · refine ⟨"\"" ++ c.name ++ "\" " ++ c.type
        ++ (if !c.nullable then " NOT NULL" else "")
        ++ (match c.default with
            | some d => if d = "" then "" else " DEFAULT " ++ d
            | none => ""), ?_⟩
      simp only [colDefUpdate, hpk, eq_self_iff_true, if_true]
  · intro t cat cat1 r hinv hok
    obtain ⟨hnot, hne, hnd, hpk, rfl, rfl⟩ := create_table_ok_shape hok
    intro tb htb
    rcases List.mem_append.mp htb with h | h
    · exact hinv tb h
    · rcases List.mem_singleton.mp h with rfl
      exact hpk
  · intro ts tn tu cat cat1 r hinv hok
    obtain ⟨old, hlk, hc, hnd, hpk, htmp, hfn, rfl, rfl⟩ := update_table_ok_shape hok
    intro tb htb
    rcases List.mem_append.mp htb with h | h
    · exact hinv tb (List.mem_filter.mp h).1
    · rcases List.mem_singleton.mp h with rfl
      exact hpk

/-- C10 witness at concrete inputs: the emitted clause of a primary-key
column, and invariant preservation through a concrete create. -/
theorem C10_single_pk_only_inline_witness :
    (∃ s, colDefCreate ⟨"id", "INTEGER", true, none, true, none⟩ = s ++ " PRIMARY KEY") ∧
    pkInvariant [⟨"w", [⟨"id", "INTEGER", true, none, true⟩], [], []⟩] :=
  ⟨(C10_single_pk_only_inline.1 ⟨"id", "INTEGER", true, none, true, none⟩ rfl).1,
   C10_single_pk_only_inline.2.1 ⟨"w", [⟨"id", "INTEGER", true, none, true, none⟩]⟩ []
     [⟨"w", [⟨"id", "INTEGER", true, none, true⟩], [], []⟩]
     ⟨"w", [⟨"id", "INTEGER", true, none, true⟩], []⟩
     (fun tb htb => absurd htb (List.not_mem_nil tb)) (by decide)⟩

/-- Unfolding `rowVal` over the head entry of a row. -/
theorem rowVal_cons {p : String × Option String} {rest : Row} {n : String} :
    rowVal (p :: rest) n = if p.1 == n then p.2 else rowVal rest n := by
  by_cases h : (p.1 == n) = true
  · have hf : List.find? (fun x => x.1 == n) (p :: rest) = some p :=
      List.find?_cons_of_pos _ h
    simp only [rowVal, hf, if_pos h]
  · have hf : List.find? (fun x => x.1 == n) (p :: rest) =
        List.find? (fun x => x.1 == n) rest :=
      List.find?_cons_of_neg _ h
    simp only [rowVal, hf, if_neg h]

/-- Unfolding `fillRow` over the head destination column. -/
theorem fillRow_cons {d : LiveColumn} {ds : List LiveColumn} {copyCols : List String}
    {r : Row} :
    fillRow (d :: ds) copyCols r =
      (d.name, if d.name ∈ copyCols then rowVal r d.name else d.default)
        :: fillRow ds copyCols r := rfl

/-- Reading one cell of a filled row: columns listed in the copy take the
source value, all others take their column default (given distinct
destination column names). -/
theorem rowVal_fillRow {dstCols : List LiveColumn} {copyCols : List String} {r : Row}
    {c : LiveColumn} (hnd : (dstCols.map (·.name)).Nodup) (hc : c ∈ dstCols) :
    rowVal (fillRow dstCols copyCols r) c.name =
      if c.name ∈ copyCols then rowVal r c.name else c.default := by
  induction dstCols with
  | nil => exact absurd hc (List.not_mem_nil c)
  | cons d ds ih =>
    rw [List.map_cons, List.nodup_cons] at hnd
    rw [fillRow_cons, rowVal_cons]
    rcases List.mem_cons.mp hc with rfl | hc2
    · rw [if_pos (beq_self_eq_true c.name)]
    · have hd_ne : ¬ ((d.name == c.name) = true) := by
        intro he
        apply hnd.1
        rw [beq_iff_eq] at he
        rw [he]
        exact List.mem_map.mpr ⟨c, hc2, rfl⟩
      rw [if_neg hd_ne]
      exact ih hnd.2 hc2

/-- C2: on every successful updateTable of an existing table, the copy
statement — present exactly when the name-intersection of old schema and new
spec is non-empty — carries exactly that intersection in new-spec order with
the old table as source; the rebuilt table carries the new columns, its rows
are the old rows pushed through the copy (none at all when the intersection
is empty), and each copied row preserves name-matched values while columns
only in the new spec read as their default (NULL when none). -/
theorem C2_update_copies_intersection {ts : Nat} {tn : String} {tu : TableUpdate}
    {cat cat1 : Catalog} {r : TableResult} {old : LiveTable}
    (hmem : lookupTable cat tn = some old)
    (hok : update_table ts tn tu cat = (cat1, .ok r)) :
    (commonColumns tu old.columns ≠ [] →
      Stmt.copy (tempName tn ts) (commonColumns tu old.columns) tn
        ∈ updateStmts ts tn tu old.columns) ∧
    (commonColumns tu old.columns = [] →
      ∀ s ∈ updateStmts ts tn tu old.columns, ∀ d cs sr, s ≠ Stmt.copy d cs sr) ∧
    ∃ tbl, lookupTable cat1 (finalName tn tu) = some tbl ∧
      tbl.columns = tu.columns.map liveColUpdate ∧
      tbl.rows = (if commonColumns tu old.columns = [] then []
                  else old.rows.map (fillRow (tu.columns.map liveColUpdate)
                         (commonColumns tu old.columns))) ∧
      (∀ row ∈ old.rows, ∀ c ∈ tu.columns.map liveColUpdate,
        rowVal (fillRow (tu.columns.map liveColUpdate)
            (commonColumns tu old.columns) row) c.name =
          if c.name ∈ commonColumns tu old.columns then rowVal row c.name
          else c.default) := by
  obtain ⟨old2, hlk2, hcne, hnd, hpk, htmp, hfn, rfl, rfl⟩ := update_table_ok_shape hok
  rw [hmem] at hlk2
  injection hlk2 with hold
  subst hold
  refine ⟨?_, ?_, ?_⟩
  · intro hcomm
    simp only [updateStmts]
    rw [if_pos ⟨hcne, hcomm⟩]
    simp
  · intro hcomm s hs d cs sr heq
    subst heq
    simp only [updateStmts] at hs
    rw [if_neg (by
      rintro ⟨-, h2⟩
      exact h2 hcomm)] at hs
    cases hrn : renamesTo tn tu with
    | none =>
      rw [hrn] at hs
      simp at hs
    | some n =>
      rw [hrn] at hs
      simp at hs
  · refine ⟨⟨finalName tn tu, tu.columns.map liveColUpdate, tu.columns.filterMap liveFk,
      if commonColumns tu old.columns = [] then []
      else old.rows.map (fillRow (tu.columns.map liveColUpdate)
             (commonColumns tu old.columns))⟩, ?_, rfl, rfl, ?_⟩
    · rw [lookupTable_append, lookupTable_eq_none_iff.mpr hfn, Option.none_or]
      exact lookupTable_singleton_self
    · intro row hrow c hcmem
      exact rowVal_fillRow hnd hcmem

/-- The old table for the C2 witness: columns a, b, c with one row. -/
def exTblABC : LiveTable :=
  ⟨"t", [⟨"a", "INTEGER", true, none, false⟩, ⟨"b", "TEXT", true, none, false⟩,
         ⟨"c", "INTEGER", true, none, false⟩], [],
   [[("a", some "1"), ("b", some "x"), ("c", some "2")]]⟩

/-- One-table catalog holding `exTblABC`. -/
def exCatABC : Catalog := [exTblABC]

/-- The C2 witness update spec: columns a, b, d (d new, c dropped). -/
def exTuABD : TableUpdate :=
  ⟨none, [⟨"a", "INTEGER", true, none, false, none⟩, ⟨"b", "TEXT", true, none, false, none⟩,
          ⟨"d", "INTEGER", true, none, false, none⟩]⟩

/-- The table the C2 witness update produces: a and b kept, d NULL. -/
def exTblABD : LiveTable :=
  ⟨"t", [⟨"a", "INTEGER", true, none, false⟩, ⟨"b", "TEXT", true, none, false⟩,
         ⟨"d", "INTEGER", true, none, false⟩], [],
   [[("a", some "1"), ("b", some "x"), ("d", none)]]⟩

/-- C2 witness: the data-preservation example of the spec, concretely. -/
theorem C2_update_copies_intersection_witness :
    lookupTable exCatABC "t" = some exTblABC ∧
    update_table 5 "t" exTuABD exCatABC = ([exTblABD], .ok ⟨"t", exTblABD.columns, []⟩) ∧
    Stmt.copy (tempName "t" 5) (commonColumns exTuABD exTblABC.columns) "t"
      ∈ updateStmts 5 "t" exTuABD exTblABC.columns :=
  ⟨rfl, by decide,
   (@C2_update_copies_intersection 5 "t" exTuABD exCatABC [exTblABD]
      ⟨"t", exTblABD.columns, []⟩ exTblABC rfl (by decide)).1 (by decide)⟩

/-- C4 counterexample: the spec name "" is provided and differs from "t", yet
the successful update emits no final rename (Python truthiness of
`if table_update.name` treats "" like None): the last statement is the
temp-into-place rename, the table is still named "t" and no table named ""
exists. -/
theorem C4_counterexample :
    exceptIsOk (update_table 7 "t" ⟨some "", [exCol]⟩ exCatT).2 = true ∧
    "t" ∈ tableNames (update_table 7 "t" ⟨some "", [exCol]⟩ exCatT).1 ∧
    "" ∉ tableNames (update_table 7 "t" ⟨some "", [exCol]⟩ exCatT).1 ∧
    (updateStmts 7 "t" ⟨some "", [exCol]⟩ exTblT.columns).getLast? =
      some (Stmt.rename (tempName "t" 7) "t") := by
  decide

/-- C4 amended (the counterexample forces "provides a name" to read "provides
a non-empty name", matching the code's truthiness check): for every
successful update of table tn whose spec provides a non-empty name n ≠ tn,
the rename to n is the final statement of the migration sequence, afterwards
no table named tn exists and exactly one table named n exists, carrying the
new schema; and when the spec name is absent, empty, or equal to tn, the
table keeps (and the response reports) the name tn. -/
theorem C4_rename_amended :
    (∀ ts tn n tu cat cat1 r old,
      lookupTable cat tn = some old → tu.name = some n → n ≠ "" → n ≠ tn →
      update_table ts tn tu cat = (cat1, .ok r) →
      (updateStmts ts tn tu old.columns).getLast? = some (Stmt.rename tn n) ∧
      tn ∉ tableNames cat1 ∧
      (tableNames cat1).count n = 1 ∧
      ∃ tbl, lookupTable cat1 n = some tbl ∧
        tbl.columns = tu.columns.map liveColUpdate) ∧
    (∀ ts tn tu cat cat1 r,
      (tu.name = none ∨ tu.name = some tn ∨ tu.name = some "") →
      update_table ts tn tu cat = (cat1, .ok r) →
      r.name = tn ∧ ∃ tbl, lookupTable cat1 tn = some tbl ∧
        tbl.columns = tu.columns.map liveColUpdate) := by
  constructor
  · intro ts tn n tu cat cat1 r old hmem hname hne hnetn hok
    have hrn : renamesTo tn tu = some n := by
      simp only [renamesTo, hname]
      rw [if_pos ⟨hne, hnetn⟩]
    obtain ⟨old2, hlk2, hcne, hnd, hpk, htmp, hfn, rfl, rfl⟩ := update_table_ok_shape hok
    rw [hmem] at hlk2
    injection hlk2 with hold
    subst hold
    rw [finalName_of_renamesTo_some hrn] at hfn ⊢
    refine ⟨?_, ?_, ?_, ?_⟩
    · simp only [updateStmts, hrn]
      by_cases hg : tu.columns ≠ [] ∧ commonColumns tu old.columns ≠ []
      · rw [if_pos hg]
        simp
      · rw [if_neg hg]
        simp
    · rw [tableNames_append]
      intro hmemtn
      rcases List.mem_append.mp hmemtn with h | h
      · exact not_mem_tableNames_filter_ne h
      · simp only [tableNames, List.map_cons, List.map_nil, List.mem_singleton] at h
        exact hnetn h.symm
    · rw [tableNames_append, List.count_append,
        List.count_eq_zero.mpr hfn]
      simp [tableNames]
    · refine ⟨⟨n, tu.columns.map liveColUpdate, tu.columns.filterMap liveFk,
        if commonColumns tu old.columns = [] then []
        else old.rows.map (fillRow (tu.columns.map liveColUpdate)
               (commonColumns tu old.columns))⟩, ?_, rfl⟩
      rw [lookupTable_append, lookupTable_eq_none_iff.mpr hfn, Option.none_or]
      exact lookupTable_singleton_self
  · intro ts tn tu cat cat1 r hcase hok
    have hrn : renamesTo tn tu = none := by
      rcases hcase with h | h | h
      · simp [renamesTo, h]
      · simp [renamesTo, h]
      · simp [renamesTo, h]
    obtain ⟨old, hlk, hcne, hnd, hpk, htmp, hfn, rfl, rfl⟩ := update_table_ok_shape hok
    rw [finalName_of_renamesTo_none hrn] at hfn ⊢
    refine ⟨rfl, ⟨tn, tu.columns.map liveColUpdate, tu.columns.filterMap liveFk,
      if commonColumns tu old.columns = [] then []
      else old.rows.map (fillRow (tu.columns.map liveColUpdate)
             (commonColumns tu old.columns))⟩, ?_, rfl⟩
    rw [lookupTable_append, lookup_filter_ne_self, Option.none_or]
    exact lookupTable_singleton_self

/-- C4 amended witness: a concrete rename to "renamed" and a concrete
name-kept update. -/
theorem C4_rename_amended_witness :
    (update_table 3 "t" ⟨some "renamed", [exCol]⟩ exCatT =
      ([⟨"renamed", [⟨"a", "INTEGER", true, none, false⟩], [], [[("a", some "1")]]⟩],
       .ok ⟨"renamed", [⟨"a", "INTEGER", true, none, false⟩], []⟩) ∧
     "t" ∉ tableNames
       [(⟨"renamed", [⟨"a", "INTEGER", true, none, false⟩], [], [[("a", some "1")]]⟩ :
         LiveTable)]) ∧
    (update_table 3 "t" ⟨none, [exCol]⟩ exCatT =
      ([⟨"t", [⟨"a", "INTEGER", true, none, false⟩], [], [[("a", some "1")]]⟩],
       .ok ⟨"t", [⟨"a", "INTEGER", true, none, false⟩], []⟩) ∧
     (⟨"t", [⟨"a", "INTEGER", true, none, false⟩], []⟩ : TableResult).name = "t") :=
  ⟨⟨by decide,
    (C4_rename_amended.1 3 "t" "renamed" ⟨some "renamed", [exCol]⟩ exCatT
      [⟨"renamed", [⟨"a", "INTEGER", true, none, false⟩], [], [[("a", some "1")]]⟩]
      ⟨"renamed", [⟨"a", "INTEGER", true, none, false⟩], []⟩ exTblT
      rfl rfl (by decide) (by decide) (by decide)).2.1⟩,
   ⟨by decide,
    (C4_rename_amended.2 3 "t" ⟨none, [exCol]⟩ exCatT
      [⟨"t", [⟨"a", "INTEGER", true, none, false⟩], [], [[("a", some "1")]]⟩]
      ⟨"t", [⟨"a", "INTEGER", true, none, false⟩], []⟩
      (Or.inl rfl) (by decide)).1⟩⟩

/-- The FK-carrying column of the C8 counterexample. -/
def exColFk : ColumnCreate := ⟨"c", "INTEGER", true, none, false, some ⟨"p", "id"⟩⟩

/-- The empty-string-default column of the C8 counterexample. -/
def exColEmptyDef : ColumnCreate := ⟨"a", "INTEGER", true, some "", false, none⟩

/-- C8 counterexample: for a column carrying a foreign key the update path's
temp CREATE TABLE text is not what the create-path rules of §4.3 produce for
the same spec and name — the update path emits an unnamed FOREIGN KEY clause
without any `CONSTRAINT fk_<table>_<column>_<ordinal>` prefix (the computed
fk_name is never used) — and for an empty-string default the update path
skips the DEFAULT clause the create path emits. -/
theorem C8_counterexample :
    createTableSqlUpdate "tmp" [exColFk] ≠ createTableSqlCreate ⟨"tmp", [exColFk]⟩ ∧
    createTableSqlCreate ⟨"tmp", [exColFk]⟩ =
      "CREATE TABLE \"tmp\" (\n  \"c\" INTEGER,\n  CONSTRAINT \"fk_tmp_c_0\" FOREIGN KEY (\"c\") REFERENCES \"p\" (\"id\")\n)" ∧
    createTableSqlUpdate "tmp" [exColFk] =
      "CREATE TABLE \"tmp\" (\n  \"c\" INTEGER,\n  FOREIGN KEY (\"c\") REFERENCES \"p\" (\"id\")\n)" ∧
    colDefCreate exColEmptyDef = "\"a\" INTEGER DEFAULT " ∧
    colDefUpdate exColEmptyDef = "\"a\" INTEGER" := by
  decide

/-- C8 amended: the update path's temp CREATE TABLE text coincides with the
create path's compilation exactly on the fragment the counterexample leaves —
specs in which no column carries a foreign key or an empty-string default;
there the column-definition rules (NOT NULL, DEFAULT, PRIMARY KEY) agree
clause for clause. -/
theorem C8_same_rules_amended (tableName : String) (cols : List ColumnCreate)
    (h : ∀ c ∈ cols, c.foreign_key = none ∧ c.default ≠ some "") :
    createTableSqlUpdate tableName cols = createTableSqlCreate ⟨tableName, cols⟩ := by
  have h1 : cols.map colDefUpdate = cols.map colDefCreate :=
    List.map_congr_left (fun c hc => by
      cases hd : c.default with
      | none => simp only [colDefUpdate, colDefCreate, hd]
      | some d =>
        have hdne : ¬ (d = "") := by
          intro he
          rw [he] at hd
          exact (h c hc).2 hd
        simp only [colDefUpdate, colDefCreate, hd]
        rw [if_neg hdne])
  have h2 : cols.filterMap fkClauseUpdate = [] := by
    rw [List.filterMap_eq_nil_iff]
    intro c hc
    simp only [fkClauseUpdate, (h c hc).1]
  have h3 : cols.enum.filterMap (fun p => fkClauseCreate tableName p.1 p.2) = [] := by
    rw [List.filterMap_eq_nil_iff]
    rw [List.forall_mem_enum]
    intro i hi
    simp only [fkClauseCreate, (h cols[i] (List.getElem_mem hi)).1]
  unfold createTableSqlUpdate createTableSqlCreate
  rw [h1, h2, h3]

/-- C8 amended witness at a concrete FK-free, empty-default-free spec. -/
theorem C8_same_rules_amended_witness :
    createTableSqlUpdate "w" [⟨"id", "INTEGER", false, some "0", true, none⟩] =
      createTableSqlCreate ⟨"w", [⟨"id", "INTEGER", false, some "0", true, none⟩]⟩ :=
  C8_same_rules_amended "w" [⟨"id", "INTEGER", false, some "0", true, none⟩] (by decide)

end WebSiteWithAI
